import Mathlib

/-!
Shallow embedding of the plan-execute-replan toy agent
(`src/backend/toy_agent.py`, `src/backend/api.py`; the root-level
`src/toy_agent.py` is a near-duplicate prototype of the same loop).

Modelling conventions:
* Python dicts `{"id": ..., "type": ..., "label": ...}` become structures.
* `uuid4()` is modelled as a deterministic fresh-id supply: a `Nat` counter
  `g` whose call returns `g` and advances to `g + 1`.  Freshness of a
  generated id relative to the canvas holds under the invariant that every
  id already in the canvas was drawn earlier from the supply (`id < g`),
  which is how every id in the program comes to exist.
* Tool return values, built in Python with `json.dumps`, are modelled
  structurally: the `add_node` tool returns a record with `status`, `msg`
  and `id` fields; the `connect_nodes` tool returns either its success
  record or one of its two error strings.
* The three LLM calls (planner, executor, replanner) are external oracles:
  arbitrary functions quantified over in every theorem.  The loop's own
  logic never inspects them beyond the declared return shapes.
-/

namespace ToyAgent

/-- A canvas node: `{"id": new_id, "type": type, "label": label}`. -/
structure Node where
  id : Nat
  type : String
  label : String
  deriving Repr, DecidableEq

/-- A canvas edge: `{"source": s_node['id'], "target": t_node['id']}`. -/
structure Edge where
  source : Nat
  target : Nat
  deriving Repr, DecidableEq

/-- `InMemoryCanvas` from `src/backend/toy_agent.py`: two append-only lists. -/
structure InMemoryCanvas where
  nodes : List Node
  edges : List Edge
  deriving Repr, DecidableEq

namespace InMemoryCanvas

/-- `get_state`: returns the dict `{"nodes": self.nodes, "edges": self.edges}`. -/
def get_state (c : InMemoryCanvas) : List Node × List Edge :=
  (c.nodes, c.edges)

/-- `add_node`: `self.nodes.append(node)`. -/
def add_node (c : InMemoryCanvas) (n : Node) : InMemoryCanvas :=
  { c with nodes := c.nodes ++ [n] }

/-- `add_edge`: `self.edges.append(edge)`. -/
def add_edge (c : InMemoryCanvas) (e : Edge) : InMemoryCanvas :=
  { c with edges := c.edges ++ [e] }

end InMemoryCanvas

/-- The JSON payload of `tool_add_node`:
`{"status": "success", "msg": f"Added node '{label}'", "id": new_id}`. -/
structure AddNodeResult where
  status : String
  msg : String
  id : Nat
  deriving Repr, DecidableEq

/-- `tool_add_node(ctx, type, label)`: draws a fresh id from the uuid supply
`g`, appends the node `{"id": new_id, "type": type, "label": label}` to the
canvas, and reports success.  Returns (tool result, advanced supply, canvas). -/
def tool_add_node (g : Nat) (c : InMemoryCanvas) (type label : String) :
    AddNodeResult × Nat × InMemoryCanvas :=
  let new_id := g
  let node : Node := { id := new_id, type := type, label := label }
  let c' := c.add_node node
  ({ status := "success", msg := "Added node '" ++ label ++ "'", id := new_id },
   g + 1, c')

/-- Python `str.lower()`, case folding applied character by character (the
same ASCII folding Lean's own `String.toLower` performs, written as a plain
list map so that it is kernel-evaluable). -/
def lower (s : String) : String :=
  String.mk (s.data.map Char.toLower)

/-- The return value of `tool_connect_nodes`: the Python function returns
either one of its two error strings or the success JSON
`{"status": "success", "msg": f"Connected {source_label} to {target_label}"}`. -/
inductive ConnectResult where
  | ok (msg : String)
  | error (msg : String)
  deriving Repr, DecidableEq

/-- `tool_connect_nodes(ctx, source_label, target_label)`: looks each label up
case-insensitively among the current nodes (`next((n for n in nodes if
n['label'].lower() == source_label.lower()), None)` — the first match in
insertion order), returns the source / target error strings if a lookup
misses, and otherwise appends one edge from the source match's id to the
target match's id. -/
def tool_connect_nodes (c : InMemoryCanvas) (source_label target_label : String) :
    ConnectResult × InMemoryCanvas :=
  let nodes := c.get_state.1
  let s_node := nodes.find? (fun n => lower n.label == lower source_label)
  let t_node := nodes.find? (fun n => lower n.label == lower target_label)
  match s_node with
  | none => (.error ("Error: Source node '" ++ source_label ++ "' not found."), c)
  | some s =>
    match t_node with
    | none => (.error ("Error: Target node '" ++ target_label ++ "' not found."), c)
    | some t => (.ok ("Connected " ++ source_label ++ " to " ++ target_label),
                 c.add_edge { source := s.id, target := t.id })

/-! ### The plan-execute-replan loop (`create_graph` in `src/backend/toy_agent.py`)

LangGraph specifics embedded here:
* `PlanExecuteState` is the TypedDict threaded through the graph; the
  `executor_messages` channel is carried by the state but never read or
  written by any of the three nodes, so it is omitted.
* A node returns a partial update; the `past_steps` channel is declared
  `Annotated[..., operator.add]`, so its update is *appended*, while `plan`
  and `response` are last-value channels, overwritten when present.
* The `plan` channel is declared `list[str]` but the replanner node may
  write `decision.plan`, an `Optional[List[str]]`, into it, so the channel
  can in fact hold `None`; it is therefore modelled as `Option (List String)`.
* Python truthiness decides both branches (`if decision.response:`,
  `if state.get("response")`, `if not state['plan']`): `None` and the empty
  string / empty list are falsy.
-/

/-- The `PlanExecuteState` TypedDict (minus the unused `executor_messages`
channel). -/
structure PlanExecuteState where
  input : String
  plan : Option (List String)
  past_steps : List (String × String)
  response : Option String
  deriving Repr, DecidableEq

/-- The replanner's structured output `RePlan`:
`response: Optional[str]`, `plan: Optional[List[str]]`. -/
structure RePlan where
  response : Option String
  plan : Option (List String)
  deriving Repr, DecidableEq

/-- Python truthiness of an `Optional[str]`: `None` and `""` are falsy. -/
def strTruthy : Option String → Bool
  | none => false
  | some s => !s.isEmpty

/-- The three external LLM calls, modelled as arbitrary deterministic
oracles.  Each one's value may depend on the whole loop state (an
over-approximation of the prompt it is given); the loop only relies on the
declared return shapes, so every theorem quantifies over all oracles. -/
structure Oracles where
  planner : PlanExecuteState → List String
  executor : String → String
  replanner : PlanExecuteState → RePlan

/-- The phases of the compiled graph: the three named nodes plus `END`. -/
inductive Phase where
  | plan
  | execute
  | replan
  | terminate
  deriving Repr, DecidableEq

/-- `planner_edge`: `if state.get("response"): return END` else `"executor"`. -/
def planner_edge (s : PlanExecuteState) : Phase :=
  if strTruthy s.response then .terminate else .execute

/-- `planner_node`: runs the planner and returns `{"plan": result.output.steps}`
(a genuine list — the pydantic `Plan.steps` field is required). -/
def planner_node (ors : Oracles) (s : PlanExecuteState) : PlanExecuteState :=
  { s with plan := some (ors.planner s) }

/-- `executor_step_node`: `if not state['plan']: return {"past_steps": []}`
(a no-op on the additive channel); otherwise runs the executor on
`state['plan'][0]` only and returns
`{"past_steps": [(step_to_execute, str(output))]}`, which `operator.add`
appends after the existing history. -/
def executor_step_node (ors : Oracles) (s : PlanExecuteState) : PlanExecuteState :=
  match s.plan with
  | some (step :: _) =>
      { s with past_steps := s.past_steps ++ [(step, ors.executor step)] }
  | _ => s

/-- `replanner_node`: runs the replanner; on a truthy `decision.response` it
returns `{"response": decision.response, "plan": []}`, otherwise
`{"plan": decision.plan}`. -/
def replanner_node (ors : Oracles) (s : PlanExecuteState) : PlanExecuteState :=
  let decision := ors.replanner s
  if strTruthy decision.response then
    { s with response := decision.response, plan := some [] }
  else
    { s with plan := decision.plan }

/-- One transition of the compiled graph: entry point `planner`,
`planner → executor` and `executor → re_planner` unconditional,
`re_planner → {executor | END}` through `planner_edge`; `END` is absorbing. -/
def stepLoop (ors : Oracles) : Phase × PlanExecuteState → Phase × PlanExecuteState
  | (.plan, s) => (.execute, planner_node ors s)
  | (.execute, s) => (.replan, executor_step_node ors s)
  | (.replan, s) =>
      let s' := replanner_node ors s
      (planner_edge s', s')
  | (.terminate, s) => (.terminate, s)

/-- The initial loop state for one user request, as built by both runners:
`{"input": user_input, "plan": [], "past_steps": []}` with the `response`
channel left at its `None` default. -/
def initState (input : String) : PlanExecuteState :=
  { input := input, plan := some [], past_steps := [], response := none }

/-- The run of the loop on one user request: `n` transitions from the entry
point `planner` on the initial state. -/
def loopIter (ors : Oracles) (input : String) (n : Nat) : Phase × PlanExecuteState :=
  (stepLoop ors)^[n] (.plan, initState input)

/-! ### Terminal output of the HTTP endpoint (`src/backend/api.py`)

After the `astream_events` loop finishes, `event_generator` yields exactly
two more ND-JSON records:

    canvas_state = deps.canvas.get_state()
    final_msg = "\n\n**Execution Complete.**\n\nFinal Graph State:\n"
    final_msg += f"```json\n\x7bjson.dumps(canvas_state, indent=2)\x7d\n```"
    yield json.dumps({"type": "content_chunk", "text": final_msg}) + "\n"
    yield json.dumps({"type": "done"}) + "\n"

The two records are modelled structurally as `ApiEvent`s; the embedded
`json.dumps(canvas_state, indent=2)` string is reproduced character for
character (node ids, uuid strings in the source, print as their numbered
tokens).
-/

/-- One hexadecimal digit, lowercase, as emitted by Python's `json` module. -/
def hexDigit (n : Nat) : Char :=
  if n < 10 then Char.ofNat (48 + n) else Char.ofNat (87 + n)

/-- Four lowercase hex digits. -/
def hex4 (n : Nat) : String :=
  String.mk [hexDigit (n / 4096 % 16), hexDigit (n / 256 % 16),
             hexDigit (n / 16 % 16), hexDigit (n % 16)]

/-- Python `json.dumps` `\uXXXX` escape for a code point, using a surrogate
pair beyond the basic multilingual plane. -/
def uEscape (n : Nat) : String :=
  if n < 65536 then "\\u" ++ hex4 n
  else
    let m := n - 65536
    "\\u" ++ hex4 (55296 + m / 1024) ++ "\\u" ++ hex4 (56320 + m % 1024)

/-- Escaping of one character inside a JSON string, as Python's
`json.dumps` does with its default `ensure_ascii=True`. -/
def jsonEscapeChar (ch : Char) : String :=
  if ch = '\\' then "\\\\"
  else if ch = '"' then "\\\""
  else if ch = '\n' then "\\n"
  else if ch = '\r' then "\\r"
  else if ch = '\t' then "\\t"
  else if ch.toNat = 8 then "\\b"
  else if ch.toNat = 12 then "\\f"
  else if ch.toNat < 32 ∨ 126 < ch.toNat then uEscape ch.toNat
  else ch.toString

/-- A JSON string literal for `s`, Python `json.dumps(s)`. -/
def jsonStr (s : String) : String :=
  "\"" ++ String.join (s.data.map jsonEscapeChar) ++ "\""

/-- `json.dumps` of one node dict at its nesting depth inside the canvas
dump (`indent=2`). -/
def nodeJson (n : Node) : String :=
  "\x7b\n      \"id\": " ++ jsonStr (toString n.id) ++
  ",\n      \"type\": " ++ jsonStr n.type ++
  ",\n      \"label\": " ++ jsonStr n.label ++ "\n    \x7d"

/-- `json.dumps` of one edge dict at its nesting depth inside the canvas
dump (`indent=2`). -/
def edgeJson (e : Edge) : String :=
  "\x7b\n      \"source\": " ++ jsonStr (toString e.source) ++
  ",\n      \"target\": " ++ jsonStr (toString e.target) ++ "\n    \x7d"

/-- `json.dumps` of a list value one level below the top dict: `[]` when
empty, otherwise items on their own indented lines. -/
def listJson (items : List String) : String :=
  match items with
  | [] => "[]"
  | _ => "[\n    " ++ String.intercalate ",\n    " items ++ "\n  ]"

/-- `json.dumps(canvas_state, indent=2)` for the dict
`{"nodes": [...], "edges": [...]}` returned by `get_state`. -/
def canvasJson (c : InMemoryCanvas) : String :=
  "\x7b\n  \"nodes\": " ++ listJson (c.nodes.map nodeJson) ++
  ",\n  \"edges\": " ++ listJson (c.edges.map edgeJson) ++ "\n\x7d"

/-- `final_msg` from `event_generator`: the fixed completion banner followed
by the fenced canvas dump. -/
def final_msg (c : InMemoryCanvas) : String :=
  "\n\n**Execution Complete.**\n\nFinal Graph State:\n" ++
  "```json\n" ++ canvasJson c ++ "\n```"

/-- The two ND-JSON records the endpoint can still emit after the agent
stream has ended, keyed by their `type` field. -/
inductive ApiEvent where
  | content_chunk (text : String)
  | done
  deriving Repr, DecidableEq

/-- The terminal section of `event_generator`: one `content_chunk` with
`final_msg` built from the canvas snapshot, then one `done` record. -/
def terminalEvents (c : InMemoryCanvas) : List ApiEvent :=
  [.content_chunk (final_msg c), .done]

/-- Substring occurrence on character lists: does `pat` occur contiguously
in the second argument?  (Executable stand-in for string containment.) -/
def occursIn (pat : List Char) : List Char → Bool
  | [] => pat.isEmpty
  | c :: rest => pat.isPrefixOf (c :: rest) || occursIn pat rest

/-! ### Concrete fixtures used by witnesses and counterexamples -/

/-- A concrete node, as `tool_add_node` would create with supply value 0. -/
def nodeA : Node := { id := 0, type := "source", label := "A" }

/-- A concrete node, as `tool_add_node` would create with supply value 1. -/
def nodeB : Node := { id := 1, type := "sink", label := "B" }

/-- A concrete canvas holding `nodeA` and `nodeB` and no edges. -/
def canvasAB : InMemoryCanvas := { nodes := [nodeA, nodeB], edges := [] }

/-- A concrete oracle bundle whose replanner immediately reports a final
response. -/
def oraclesA : Oracles :=
  { planner := fun _ => ["make node A"]
    executor := fun _ => "ok"
    replanner := fun _ => { response := some "All done.", plan := none } }

/-- A concrete oracle bundle whose replanner keeps going with a one-step
remaining plan. -/
def oraclesB : Oracles :=
  { planner := fun _ => ["s1", "s2"]
    executor := fun s => s ++ " done"
    replanner := fun _ => { response := none, plan := some ["s2"] } }

end ToyAgent

namespace ToyAgent

/-! ### Claim theorems -/

/-- C1: for every canvas and pair of label strings, `tool_connect_nodes`
fails with the "Source node ... not found." message (canvas untouched) when
no node's label matches the source label case-insensitively; fails with the
"Target node ... not found." message (canvas untouched) when the source
matches but no node matches the target label; and when both labels match —
`List.find?` returning the first match in insertion order — it succeeds and
appends exactly one edge from the first source match's id to the first
target match's id, leaving the node list unchanged. -/
theorem tool_connect_nodes_spec (c : InMemoryCanvas) (source_label target_label : String) :
    ((∀ n ∈ c.nodes, lower n.label ≠ lower source_label) →
      tool_connect_nodes c source_label target_label =
        (.error ("Error: Source node '" ++ source_label ++ "' not found."), c)) ∧
    (∀ s, c.nodes.find? (fun n => lower n.label == lower source_label) = some s →
      (∀ n ∈ c.nodes, lower n.label ≠ lower target_label) →
      tool_connect_nodes c source_label target_label =
        (.error ("Error: Target node '" ++ target_label ++ "' not found."), c)) ∧
    (∀ s t, c.nodes.find? (fun n => lower n.label == lower source_label) = some s →
      c.nodes.find? (fun n => lower n.label == lower target_label) = some t →
      tool_connect_nodes c source_label target_label =
        (.ok ("Connected " ++ source_label ++ " to " ++ target_label),
         { c with edges := c.edges ++ [{ source := s.id, target := t.id }] })) := by
  refine ⟨?_, ?_, ?_⟩
  · intro h
    have hs : c.nodes.find? (fun n => lower n.label == lower source_label) = none :=
      List.find?_eq_none.mpr (fun n hn => by simpa using h n hn)
    simp [tool_connect_nodes, InMemoryCanvas.get_state, hs]
  · intro s hs h
    have ht : c.nodes.find? (fun n => lower n.label == lower target_label) = none :=
      List.find?_eq_none.mpr (fun n hn => by simpa using h n hn)
    simp [tool_connect_nodes, InMemoryCanvas.get_state, hs, ht]
  · intro s t hs ht
    simp [tool_connect_nodes, InMemoryCanvas.get_state, InMemoryCanvas.add_edge, hs, ht]

/-- Witness for C1: on the concrete canvas `[A, B]`, a missing source label,
a missing target label, and a case-insensitive success each behave as
`tool_connect_nodes_spec` states. -/
theorem tool_connect_nodes_spec_witness :
    (tool_connect_nodes canvasAB "C" "B" =
      (.error "Error: Source node 'C' not found.", canvasAB)) ∧
    (tool_connect_nodes canvasAB "a" "C" =
      (.error "Error: Target node 'C' not found.", canvasAB)) ∧
    (tool_connect_nodes canvasAB "a" "b" =
      (.ok "Connected a to b",
       { canvasAB with edges := [{ source := 0, target := 1 }] })) := by
  refine ⟨?_, ?_, ?_⟩
  · exact (tool_connect_nodes_spec canvasAB "C" "B").1 (by decide)
  · exact (tool_connect_nodes_spec canvasAB "a" "C").2.1 nodeA (by decide) (by decide)
  · have h := (tool_connect_nodes_spec canvasAB "a" "b").2.2 nodeA nodeB (by decide) (by decide)
    simpa [canvasAB, nodeA, nodeB] using h

/-- C10: whenever `tool_connect_nodes` returns one of its error results, the
canvas it returns is exactly the input canvas — no node or edge added,
removed or modified. -/
theorem tool_connect_nodes_error_frame (c : InMemoryCanvas) (source_label target_label m : String)
    (h : (tool_connect_nodes c source_label target_label).1 = .error m) :
    (tool_connect_nodes c source_label target_label).2 = c := by
  rcases hs : c.nodes.find? (fun n => lower n.label == lower source_label) with _ | s
  · simp [tool_connect_nodes, InMemoryCanvas.get_state, hs]
  · rcases ht : c.nodes.find? (fun n => lower n.label == lower target_label) with _ | t
    · simp [tool_connect_nodes, InMemoryCanvas.get_state, hs, ht]
    · simp [tool_connect_nodes, InMemoryCanvas.get_state, hs, ht] at h

/-- Witness for C10: a failing connect on the concrete canvas leaves it
unchanged. -/
theorem tool_connect_nodes_error_frame_witness :
    (tool_connect_nodes canvasAB "X" "Y").2 = canvasAB :=
  tool_connect_nodes_error_frame canvasAB "X" "Y"
    "Error: Source node 'X' not found." (by decide)

/-- C5: under the supply invariant (every existing node id was drawn earlier
from the uuid supply), `tool_add_node` reports success, appends exactly one
node carrying the drawn id to the canvas (edges untouched), the drawn id
differs from every existing node's id, the invariant is preserved, and a
second call with the identical type and label draws a distinct id — two
distinct nodes, no deduplication. -/
theorem tool_add_node_spec (g : Nat) (c : InMemoryCanvas) (type label : String)
    (hfresh : ∀ n ∈ c.nodes, n.id < g) :
    (tool_add_node g c type label).1.status = "success" ∧
    (tool_add_node g c type label).2.2.nodes
      = c.nodes ++ [{ id := g, type := type, label := label }] ∧
    (tool_add_node g c type label).2.2.edges = c.edges ∧
    (∀ n ∈ c.nodes, n.id ≠ (tool_add_node g c type label).1.id) ∧
    (∀ n ∈ (tool_add_node g c type label).2.2.nodes,
      n.id < (tool_add_node g c type label).2.1) ∧
    (tool_add_node (tool_add_node g c type label).2.1
        (tool_add_node g c type label).2.2 type label).1.id
      ≠ (tool_add_node g c type label).1.id := by
  refine ⟨rfl, rfl, rfl, ?_, ?_, ?_⟩
  · intro n hn
    exact Nat.ne_of_lt (hfresh n hn)
  · intro n hn
    simp only [tool_add_node, InMemoryCanvas.add_node, List.mem_append,
      List.mem_singleton] at hn
    rcases hn with hn | hn
    · exact Nat.lt_succ_of_lt (hfresh n hn)
    · subst hn; exact Nat.lt_succ_self g
  · simp [tool_add_node]

/-- Witness for C5: starting from the concrete canvas (all ids below 2),
adding a node succeeds with the fresh id 2 and a repeat call draws id 3. -/
theorem tool_add_node_spec_witness :
    (tool_add_node 2 canvasAB "process" "F").1.status = "success" ∧
    (tool_add_node 2 canvasAB "process" "F").2.2.nodes
      = canvasAB.nodes ++ [{ id := 2, type := "process", label := "F" }] ∧
    (∀ n ∈ canvasAB.nodes, n.id ≠ (tool_add_node 2 canvasAB "process" "F").1.id) ∧
    (tool_add_node (tool_add_node 2 canvasAB "process" "F").2.1
        (tool_add_node 2 canvasAB "process" "F").2.2 "process" "F").1.id
      ≠ (tool_add_node 2 canvasAB "process" "F").1.id := by
  have h := tool_add_node_spec 2 canvasAB "process" "F" (by decide)
  exact ⟨h.1, h.2.1, h.2.2.2.1, h.2.2.2.2.2⟩

/-- C9: `add_node` appends its argument at the end of the node list — even a
node whose id is already present — and leaves the edge list unchanged;
`add_edge` appends its argument at the end of the edge list — whether or not
its endpoints name existing nodes — and leaves the node list unchanged;
`get_state` returns the current nodes and edges and, being a pure function
of the canvas, modifies neither. -/
theorem canvas_ops_spec (c : InMemoryCanvas) (n : Node) (e : Edge) :
    (c.add_node n).nodes = c.nodes ++ [n] ∧
    (c.add_node n).edges = c.edges ∧
    (c.add_edge e).edges = c.edges ++ [e] ∧
    (c.add_edge e).nodes = c.nodes ∧
    c.get_state = (c.nodes, c.edges) := by
  exact ⟨rfl, rfl, rfl, rfl, rfl⟩

/-- Run invariant for the loop: as long as a run started from the initial
state has not reached `END`, the `response` channel still holds its `None`
default — the planner and executor nodes never write it, and the replanner
writes it only on the branch whose very next edge is `END`. -/
theorem response_none_of_not_terminate (ors : Oracles) (input : String) :
    ∀ n, (loopIter ors input n).1 ≠ Phase.terminate →
      (loopIter ors input n).2.response = none := by
  intro n
  induction n with
  | zero => intro _; rfl
  | succ n ih =>
    have hstep : loopIter ors input (n + 1) = stepLoop ors (loopIter ors input n) := by
      simp [loopIter, Function.iterate_succ_apply']
    intro h
    rw [hstep] at h ⊢
    rcases hp : loopIter ors input n with ⟨ph, s⟩
    rw [hp] at ih h
    cases ph with
    | terminate => simp [stepLoop] at h
    | plan =>
        have hr : s.response = none := ih (by simp)
        simpa [stepLoop, planner_node] using hr
    | execute =>
        have hr : s.response = none := ih (by simp)
        rcases hpl : s.plan with _ | l
        · simpa [stepLoop, executor_step_node, hpl] using hr
        · cases l <;> simpa [stepLoop, executor_step_node, hpl] using hr
    | replan =>
        have hr : s.response = none := ih (by simp)
        by_cases ht : strTruthy (ors.replanner s).response = true
        · exfalso
          exact h (by simp [stepLoop, replanner_node, ht, planner_edge])
        · have ht' : strTruthy (ors.replanner s).response = false := by
            simpa using ht
          simp [stepLoop, replanner_node, ht', planner_edge, hr]

/-- C2: along every run of the loop, a `Replan` phase transitions to `END`
exactly when the replanner's output carries a truthy (non-`None`, non-empty)
final response, and whenever that transition is taken the resulting terminal
state's plan is the empty list. -/
theorem replan_terminate_iff (ors : Oracles) (input : String) (n : Nat)
    (h : (loopIter ors input n).1 = Phase.replan) :
    ((stepLoop ors (loopIter ors input n)).1 = Phase.terminate
        ↔ strTruthy (ors.replanner (loopIter ors input n).2).response = true) ∧
    ((stepLoop ors (loopIter ors input n)).1 = Phase.terminate →
      (stepLoop ors (loopIter ors input n)).2.plan = some []) := by
  have hres : (loopIter ors input n).2.response = none :=
    response_none_of_not_terminate ors input n (by rw [h]; simp)
  rcases hp : loopIter ors input n with ⟨ph, s⟩
  rw [hp] at h hres
  subst h
  have hres' : s.response = none := hres
  by_cases ht : strTruthy (ors.replanner s).response = true
  · constructor
    · simp [stepLoop, replanner_node, ht, planner_edge]
    · intro _
      simp [stepLoop, replanner_node, ht, planner_edge]
  · have ht' : strTruthy (ors.replanner s).response = false := by simpa using ht
    have h0 : strTruthy (none : Option String) = false := rfl
    constructor
    · simp [stepLoop, replanner_node, ht', planner_edge, hres', h0]
    · intro hterm
      exfalso
      simp [stepLoop, replanner_node, ht', planner_edge, hres', h0] at hterm

/-- Witness for C2: on a run whose replanner answers "All done." at the
first review, the `Replan` phase reached after two transitions steps to
`END` with an empty plan. -/
theorem replan_terminate_iff_witness :
    (stepLoop oraclesA (loopIter oraclesA "goal" 2)).1 = Phase.terminate ∧
    (stepLoop oraclesA (loopIter oraclesA "goal" 2)).2.plan = some [] := by
  have h := replan_terminate_iff oraclesA "goal" 2 (by decide)
  exact ⟨h.1.mpr (by decide), h.2 (h.1.mpr (by decide))⟩

/-- C3: an `Execute` phase entered with a plan holding a first element (in
particular any plan of length greater than one) runs the executor on that
first element only and appends exactly one history entry; and for every
state whatsoever, an `Execute` phase grows the history by at most one
entry. -/
theorem executor_one_step (ors : Oracles) (s : PlanExecuteState)
    (step : String) (rest : List String) (h : s.plan = some (step :: rest)) :
    stepLoop ors (.execute, s)
      = (.replan, { s with past_steps := s.past_steps ++ [(step, ors.executor step)] }) ∧
    ∀ t : PlanExecuteState,
      (stepLoop ors (.execute, t)).2.past_steps.length ≤ t.past_steps.length + 1 := by
  constructor
  · simp [stepLoop, executor_step_node, h]
  · intro t
    rcases hp : t.plan with _ | l
    · simp [stepLoop, executor_step_node, hp]
    · cases l <;> simp [stepLoop, executor_step_node, hp]

/-- Witness for C3: with a two-step plan, one `Execute` phase records
exactly the first step and its result. -/
theorem executor_one_step_witness :
    stepLoop oraclesB (.execute,
        { input := "goal", plan := some ["s1", "s2"], past_steps := [], response := none })
      = (.replan,
        { input := "goal", plan := some ["s1", "s2"],
          past_steps := [("s1", "s1 done")], response := none }) := by
  have h := (executor_one_step oraclesB
    { input := "goal", plan := some ["s1", "s2"], past_steps := [], response := none }
    "s1" ["s2"] rfl).1
  simpa [oraclesB] using h

/-- C4: an `Execute` phase entered with the empty plan leaves the state
untouched — no history entry is appended — and moves straight to `Replan`;
the result is the same for every oracle bundle, so in particular the
executor is never consulted. -/
theorem executor_empty_plan (ors : Oracles) (s : PlanExecuteState)
    (h : s.plan = some []) :
    stepLoop ors (.execute, s) = (.replan, s) := by
  simp [stepLoop, executor_step_node, h]

/-- Witness for C4: a concrete state with an empty plan passes through
`Execute` unchanged. -/
theorem executor_empty_plan_witness :
    stepLoop oraclesA (.execute,
        { input := "goal", plan := some [], past_steps := [("s", "r")], response := none })
      = (.replan,
        { input := "goal", plan := some [], past_steps := [("s", "r")], response := none }) :=
  executor_empty_plan oraclesA
    { input := "goal", plan := some [], past_steps := [("s", "r")], response := none } rfl

/-- C6: the history is append-only.  Every single transition of the loop
extends `past_steps` by a (possibly empty) suffix, never removing or
replacing earlier entries; an `Execute` phase with a non-empty plan appends
exactly one (step, result) pair after all existing entries; and hence along
a run each state's history extends the previous one's. -/
theorem past_steps_append_only (ors : Oracles) (ph : Phase) (s : PlanExecuteState) :
    (∃ suffix, (stepLoop ors (ph, s)).2.past_steps = s.past_steps ++ suffix) ∧
    (∀ step rest, ph = .execute → s.plan = some (step :: rest) →
      (stepLoop ors (ph, s)).2.past_steps
        = s.past_steps ++ [(step, ors.executor step)]) ∧
    (∀ input n, ∃ suffix,
      (loopIter ors input (n + 1)).2.past_steps
        = (loopIter ors input n).2.past_steps ++ suffix) := by
  have key : ∀ q : Phase × PlanExecuteState,
      ∃ suffix, (stepLoop ors q).2.past_steps = q.2.past_steps ++ suffix := by
    intro ⟨ph', t⟩
    cases ph' with
    | plan => exact ⟨[], by simp [stepLoop, planner_node]⟩
    | execute =>
        rcases hp : t.plan with _ | l
        · exact ⟨[], by simp [stepLoop, executor_step_node, hp]⟩
        · cases l with
          | nil => exact ⟨[], by simp [stepLoop, executor_step_node, hp]⟩
          | cons a tl =>
              exact ⟨[(a, ors.executor a)], by simp [stepLoop, executor_step_node, hp]⟩
    | replan =>
        by_cases ht : strTruthy (ors.replanner t).response = true
        · exact ⟨[], by simp [stepLoop, replanner_node, ht]⟩
        · have ht' : strTruthy (ors.replanner t).response = false := by simpa using ht
          exact ⟨[], by simp [stepLoop, replanner_node, ht']⟩
    | terminate => exact ⟨[], by simp [stepLoop]⟩
  refine ⟨key (ph, s), ?_, ?_⟩
  · intro step rest hph hpl
    subst hph
    simp [stepLoop, executor_step_node, hpl]
  · intro input n
    have hstep : loopIter ors input (n + 1) = stepLoop ors (loopIter ors input n) := by
      simp [loopIter, Function.iterate_succ_apply']
    rw [hstep]
    exact key (loopIter ors input n)

/-- Witness for C6: one `Execute` transition on a concrete state extends the
existing history by exactly its first step's record. -/
theorem past_steps_append_only_witness :
    (∃ suffix,
      (stepLoop oraclesB (.execute,
          { input := "g", plan := some ["s1"], past_steps := [("s0", "r0")], response := none })).2.past_steps
        = [("s0", "r0")] ++ suffix) ∧
    (stepLoop oraclesB (.execute,
        { input := "g", plan := some ["s1"], past_steps := [("s0", "r0")], response := none })).2.past_steps
      = [("s0", "r0")] ++ [("s1", oraclesB.executor "s1")] := by
  have h := past_steps_append_only oraclesB .execute
    { input := "g", plan := some ["s1"], past_steps := [("s0", "r0")], response := none }
  exact ⟨h.1, h.2.1 "s1" [] rfl rfl⟩

/-- C7: a `Replan` phase whose replanner output has no truthy final response
(on a run, i.e. with the `response` channel still at its `None` default)
moves back to `Execute`, with the plan channel overwritten wholesale by the
replanner's returned remaining steps — not appended to or merged with the
previous plan. -/
theorem replan_to_execute (ors : Oracles) (s : PlanExecuteState)
    (hres : strTruthy s.response = false)
    (hdec : strTruthy (ors.replanner s).response = false) :
    stepLoop ors (.replan, s) = (.execute, { s with plan := (ors.replanner s).plan }) ∧
    ∀ ps, (ors.replanner s).plan = some ps →
      (stepLoop ors (.replan, s)).2.plan = some ps := by
  constructor
  · simp [stepLoop, replanner_node, hdec, planner_edge, hres]
  · intro ps hps
    simp [stepLoop, replanner_node, hdec, planner_edge, hres, hps]

/-- Witness for C7: a replanner that returns the remaining step list
`["s2"]` and no response sends the loop back to `Execute` with exactly that
plan, discarding the old one. -/
theorem replan_to_execute_witness :
    stepLoop oraclesB (.replan,
        { input := "g", plan := some ["s1", "s2"],
          past_steps := [("s1", "s1 done")], response := none })
      = (.execute,
        { input := "g", plan := some ["s2"],
          past_steps := [("s1", "s1 done")], response := none }) := by
  have h := (replan_to_execute oraclesB
    { input := "g", plan := some ["s1", "s2"],
      past_steps := [("s1", "s1 done")], response := none } rfl (by decide)).1
  simpa [oraclesB] using h

/-- C8 counterexample: on a concrete terminated run whose final response is
"All done.", the terminal section of `event_generator` emits one
`content_chunk` followed by `done`, and the final response text occurs
nowhere in the emitted text — the terminal output does *not* include the
final response, contradicting the claim as stated. -/
theorem terminal_output_counterexample :
    (loopIter oraclesA "goal" 3).1 = Phase.terminate ∧
    (loopIter oraclesA "goal" 3).2.response = some "All done." ∧
    terminalEvents canvasAB = [ApiEvent.content_chunk (final_msg canvasAB), ApiEvent.done] ∧
    occursIn "All done.".data (final_msg canvasAB).data = false := by
  exact ⟨by decide, by decide, rfl, by decide⟩

/-- C8 amended: for every canvas, the terminal output of `event_generator`
is one `content_chunk` carrying the fixed completion banner together with
the `json.dumps` snapshot of the canvas at loop end, followed by a final
`done` record; the replanner's final response text is not part of it. -/
theorem terminal_output_spec (c : InMemoryCanvas) :
    terminalEvents c = [ApiEvent.content_chunk (final_msg c), ApiEvent.done] ∧
    ∃ pre post, final_msg c = pre ++ canvasJson c ++ post := by
  exact ⟨rfl,
    "\n\n**Execution Complete.**\n\nFinal Graph State:\n```json\n", "\n```", rfl⟩

end ToyAgent
